import Mathlib

/-!
Verification of the stream-yolo repository: a WebSocket video-streaming
client/server pair with a concurrent latency benchmark harness.

The Lean definitions below are a shallow embedding of the Python sources:
  * `src/py_server/main.py`     — FastAPI server: `preprocess`, `postprocess`,
                                  the `/ws/stream` receive loop, the executor
                                  used for inference.
  * `src/py_server/client.py`   — single-client streaming script.
  * `src/py_server/utils/test.py` — multi-client load-test harness
                                  (`stream_video`, `main`).
  * `src/results/summary.py`    — offline CSV statistics.

Wall-clock times and pixel/score values are modelled as rationals; Python's
`round(x, p)` is modelled by `roundTo p` (round to `p` decimal places) and
Python's `int(x)` truncation toward zero by `pyInt`.  External collaborators
(OpenCV decode, the ONNX engine) are passed in as function parameters, exactly
as the spec treats them: opaque synchronous functions.
-/

namespace StreamYolo

/-- Python `round(x, p)`: round `x` to `p` decimal places. -/
def roundTo (p : ℕ) (x : ℚ) : ℚ := (round (x * 10 ^ p) : ℚ) / 10 ^ p

/-- Python `int(x)`: truncation toward zero. -/
def pyInt (x : ℚ) : ℤ := if 0 ≤ x then ⌊x⌋ else ⌈x⌉

/-! ### Server (`src/py_server/main.py`) -/

/-- `INPUT_SIZE = 640` (main.py line 12). -/
def INPUT_SIZE : ℕ := 640

/-- `CONF_THRESHOLD = 0.4` (main.py line 13). -/
def CONF_THRESHOLD : ℚ := 0.4

/-- One entry of the server's detection reply (main.py lines 75-87):
`box` is a list of Python ints, `score` a rounded float, `label` an int,
`name` a string. -/
structure Detection where
  box : List ℤ
  score : ℚ
  label : ℤ
  name : String
deriving DecidableEq

/-- `preprocess` (main.py lines 46-52), restricted to the two scale factors it
returns: `scale_x = orig_w / INPUT_SIZE`, `scale_y = orig_h / INPUT_SIZE`.
The resized/normalized tensor it also returns is opaque input data for the
external engine and carries no information used by any claim. -/
def preprocess (orig_w orig_h : ℕ) : ℚ × ℚ :=
  ((orig_w : ℚ) / INPUT_SIZE, (orig_h : ℚ) / INPUT_SIZE)

/-- The raw model output handed to `postprocess` (main.py line 96 passes
`np.asarray(outputs[0])`, which may be `None` before the cast):

* `noneVal` — the `raw is None` case;
* `arr1 xs` — a one-dimensional array of shape `(k,)`;
* `arr2 rows` — a two-dimensional array of shape `(N, k)`;
* `arr3 rows` — a batched three-dimensional array of shape `(1, N, k)`,
  the form the docstring of `postprocess` names. -/
inductive RawOutput
  | noneVal : RawOutput
  | arr1 (xs : List ℚ) : RawOutput
  | arr2 (rows : List (List ℚ)) : RawOutput
  | arr3 (rows : List (List ℚ)) : RawOutput
deriving DecidableEq

/-- `raw.size`: the total number of elements of the array (0 for `None`,
whose size is never read because of short-circuiting). -/
def rawSize : RawOutput → ℕ
  | RawOutput.noneVal => 0
  | RawOutput.arr1 xs => xs.length
  | RawOutput.arr2 rows => (rows.map List.length).sum
  | RawOutput.arr3 rows => (rows.map List.length).sum

/-- `raw.squeeze()` followed by the `ndim == 1 → np.newaxis` fix-up
(main.py lines 64-66) for a one-dimensional array of shape `(k,)`:
`squeeze` drops every axis of size 1, so `k = 1` yields a 0-dimensional
array and the subsequent `for row in dets` raises
`TypeError: iteration over a 0-d array`; `k ≠ 1` keeps shape `(k,)`,
which `np.newaxis` turns into the single row `(1, k)`. -/
def squeeze1 (xs : List ℚ) : Except String (List (List ℚ)) :=
  if xs.length = 1 then Except.error "iteration over a 0-d array"
  else Except.ok [xs]

/-- `raw.squeeze()` followed by the `ndim == 1 → np.newaxis` fix-up
(main.py lines 64-66) for the row list of an array of shape `(N, k)` —
or equally of shape `(1, N, k)`, since dropping the leading batch axis
first makes no difference to the final row list:
* `N = 1, k = 1`: all axes have size 1, a 0-d array remains and iterating
  over it raises;
* `N = 1`: shape `(k,)`, restored to `(1, k)` — the same single row;
* `k = 1`: shape `(N,)`, restored to `(1, N)` — one row of the column values;
* otherwise the rows are unchanged. -/
def squeezeRows (rows : List (List ℚ)) : Except String (List (List ℚ)) :=
  let n := rows.length
  let k := (rows.headD []).length
  if n = 1 ∧ k = 1 then Except.error "iteration over a 0-d array"
  else if n = 1 then Except.ok rows
  else if k = 1 then Except.ok [rows.map (fun r => r.headD 0)]
  else Except.ok rows

/-- The body of the `for row in dets` loop of `postprocess`
(main.py lines 69-87): rows shorter than 6 entries are skipped
(`if len(row) < 6: continue`), rows below the confidence threshold are
skipped, and a kept row `[x1, y1, x2, y2, score, label, ...]` becomes a
`Detection` with truncated scaled box coordinates, the score rounded to 4
decimal places, the truncated label and the `CLASS_NAMES` lookup falling
back to `"cls<label>"`. -/
def postRow (CLASS_NAMES : ℤ → Option String) (scale_x scale_y : ℚ)
    (row : List ℚ) : Option Detection :=
  match row with
  | x1 :: y1 :: x2 :: y2 :: score :: label :: _ =>
    if score < CONF_THRESHOLD then none
    else some
      { box := [pyInt (x1 * scale_x), pyInt (y1 * scale_y),
                pyInt (x2 * scale_x), pyInt (y2 * scale_y)]
        score := roundTo 4 score
        label := pyInt label
        name := (CLASS_NAMES (pyInt label)).getD ("cls" ++ toString (pyInt label)) }
  | _ => none

/-- `postprocess(raw, scale_x, scale_y)` (main.py lines 56-88).  The global
`CLASS_NAMES` dict loaded from the model metadata at startup is passed as a
parameter.  `Except.error` models an uncaught Python exception. -/
def postprocess (CLASS_NAMES : ℤ → Option String) (raw : RawOutput)
    (scale_x scale_y : ℚ) : Except String (List Detection) :=
  match raw with
  | RawOutput.noneVal => Except.ok []
  | RawOutput.arr1 xs =>
    if rawSize (RawOutput.arr1 xs) = 0 then Except.ok []
    else
      match squeeze1 xs with
      | Except.error e => Except.error e
      | Except.ok dets =>
          Except.ok (dets.filterMap (postRow CLASS_NAMES scale_x scale_y))
  | RawOutput.arr2 rows =>
    if rawSize (RawOutput.arr2 rows) = 0 then Except.ok []
    else
      match squeezeRows rows with
      | Except.error e => Except.error e
      | Except.ok dets =>
          Except.ok (dets.filterMap (postRow CLASS_NAMES scale_x scale_y))
  | RawOutput.arr3 rows =>
    if rawSize (RawOutput.arr3 rows) = 0 then Except.ok []
    else
      match squeezeRows rows with
      | Except.error e => Except.error e
      | Except.ok dets =>
          Except.ok (dets.filterMap (postRow CLASS_NAMES scale_x scale_y))

/-- A server → client message of the `/ws/stream` loop
(main.py lines 121 and 127): either the structured error payload
`{"error": "invalid image"}` or `{"detections": [...]}`. -/
inductive Reply
  | error (msg : String)
  | detections (dets : List Detection)
deriving DecidableEq

/-- Whether a reply is the structured error payload. -/
def Reply.isError : Reply → Bool
  | Reply.error _ => true
  | Reply.detections _ => false

/-- The `/ws/stream` receive loop (main.py lines 113-127) as a function from
the sequence of binary messages received on one connection to the sequence of
replies sent on it.  `decode` is `cv2.imdecode` (returning `none` exactly when
the frame is `None`), `engine` is the external `infer` call; both are opaque
collaborators.  Each iteration receives one message, replies with the error
payload and `continue`s when decoding fails, and otherwise replies with the
engine's detections — the connection is never dropped by this loop. -/
def ws_stream {Img : Type} (decode : List ℕ → Option Img)
    (engine : Img → List Detection) : List (List ℕ) → List Reply
  | [] => []
  | b :: rest =>
    match decode b with
    | none => Reply.error "invalid image" :: ws_stream decode engine rest
    | some frame => Reply.detections (engine frame) :: ws_stream decode engine rest

/-- The executor argument of `loop.run_in_executor` (main.py lines 124-126):
the server passes `None`, selecting asyncio's default executor. -/
inductive ExecutorArg
  | defaultExecutor
  | threadPool (max_workers : ℕ)
deriving DecidableEq

/-- The executor the server hands every `infer` call to: `None`
(main.py line 125). -/
def infer_executor : ExecutorArg := ExecutorArg.defaultExecutor

/-- Worker bound of the executor: asyncio's default executor is a
`ThreadPoolExecutor` whose documented default `max_workers` is
`min(32, os.cpu_count() + 4)`. -/
def executorMaxWorkers : ExecutorArg → ℕ → ℕ
  | ExecutorArg.defaultExecutor, cpu_count => min 32 (cpu_count + 4)
  | ExecutorArg.threadPool k, _ => k

/-- Whether the executor serializes inference: at most one call in flight. -/
def inferenceSerialized (e : ExecutorArg) (cpu_count : ℕ) : Bool :=
  executorMaxWorkers e cpu_count ≤ 1

/-! ### Client sessions (`src/py_server/client.py`, `src/py_server/utils/test.py`) -/

/-- One iteration of a session's send/receive loop, seen from the client:
either a completed round trip with the two `time.perf_counter()` readings
taken immediately before `ws.send` and immediately after `ws.recv`
(client.py lines 126-131, test.py lines 134-137), or a connection failure
(refusal or drop) raised at that point. -/
inductive Trip
  | ok (t0 t1 : ℚ)
  | fail
deriving DecidableEq

/-- Whether a trip completed. -/
def Trip.isOk : Trip → Bool
  | Trip.ok _ _ => true
  | Trip.fail => false

/-- One benchmark record of client.py (lines 142-148):
`{"frame": idx + 1, "delay_ms": round(delay_ms, 3), "fps": round(inst_fps, 3)}`. -/
structure BenchRecord where
  frame : ℕ
  delay_ms : ℚ
  fps : ℚ
deriving DecidableEq

/-- One benchmark record of test.py (lines 147-154), additionally tagged with
the spawning loop's 0-based `client_id`. -/
structure BenchRecordC where
  client_id : ℕ
  frame : ℕ
  delay_ms : ℚ
  fps : ℚ
deriving DecidableEq

/-- `inst_fps = 1000.0 / delay_ms if delay_ms > 0 else 0.0`
(client.py line 141, test.py line 140). -/
def instFps (delay_ms : ℚ) : ℚ := if 0 < delay_ms then 1000 / delay_ms else 0

/-- The record appended for loop iteration `idx` with timer readings `t0`,
`t1`: `delay_ms = (t1 - t0) * 1000`, rounded fields as in client.py
lines 140-148. -/
def mkRecord (idx : ℕ) (t0 t1 : ℚ) : BenchRecord :=
  { frame := idx + 1
    delay_ms := roundTo 3 ((t1 - t0) * 1000)
    fps := roundTo 3 (instFps ((t1 - t0) * 1000)) }

/-- The test.py variant of `mkRecord` (lines 139-154), tagged with
`client_id`. -/
def mkRecordC (cid idx : ℕ) (t0 t1 : ℚ) : BenchRecordC :=
  { client_id := cid
    frame := idx + 1
    delay_ms := roundTo 3 ((t1 - t0) * 1000)
    fps := roundTo 3 (instFps ((t1 - t0) * 1000)) }

/-- The `bench` list built by client.py's `stream_video` loop
(lines 114-157) as a function of the trip sequence, starting at loop
counter `idx`: each completed trip appends exactly one record and advances
`idx` by one; a connection failure raises out of the loop, so nothing
further is appended. -/
def stream_video_bench : List Trip → ℕ → List BenchRecord
  | [], _ => []
  | Trip.fail :: _, _ => []
  | Trip.ok t0 t1 :: rest, idx => mkRecord idx t0 t1 :: stream_video_bench rest (idx + 1)

/-- The `bench` list built by test.py's `stream_video` loop (lines 123-158),
tagged with `client_id`. -/
def stream_video_bench_c (cid : ℕ) : List Trip → ℕ → List BenchRecordC
  | [], _ => []
  | Trip.fail :: _, _ => []
  | Trip.ok t0 t1 :: rest, idx =>
      mkRecordC cid idx t0 t1 :: stream_video_bench_c cid rest (idx + 1)

/-- Number of completed round trips before the first connection failure:
the number of loop iterations that append a record. -/
def okStreak : List Trip → ℕ
  | Trip.ok _ _ :: rest => okStreak rest + 1
  | _ => 0

/-- client.py `stream_video` (lines 81-177): `sys.exit` paths become
`Except.error`.  An unopened capture (line 84-85) and an unopened
`VideoWriter` (lines 96-98) are each fatal before the loop; a connection
refusal or drop (lines 159-165) calls `sys.exit(1)` before `save_benchmark`,
so the in-memory records are discarded; only a fully completed run returns
its benchmark list (line 171). -/
def client_stream_video (capOpened writerOpened : Bool) (trips : List Trip) :
    Except String (List BenchRecord) :=
  if capOpened = false then Except.error "cannot open the input video"
  else if writerOpened = false then Except.error "cannot initialize the VideoWriter"
  else if trips.all Trip.isOk = false then Except.error "connection failed"
  else Except.ok (stream_video_bench trips 0)

/-- test.py `stream_video(client_id)` (lines 84-168): an unopened capture
returns `[]` at once (lines 85-87, no message is printed); the `VideoWriter`
created at lines 103-106 is never checked with `isOpened`, so `writerOpened`
is deliberately unread; any exception in the loop is caught at line 160 and
the records gathered so far are returned (line 168). -/
def test_stream_video (client_id : ℕ) (capOpened writerOpened : Bool)
    (trips : List Trip) : List BenchRecordC :=
  if capOpened = false then []
  else
    let _ := writerOpened
    stream_video_bench_c client_id trips 0

/-- test.py `main` (lines 171-194): spawns `stream_video(i)` for
`i in range(clients)`, gathers all results and concatenates them in spawn
order into `all_benchmarks`. -/
def test_main (clients : ℕ) (capOpened writerOpened : ℕ → Bool)
    (trips : ℕ → List Trip) : List BenchRecordC :=
  ((List.range clients).map
    (fun i => test_stream_video i (capOpened i) (writerOpened i) (trips i))).flatten

/-! ### Benchmark summaries (`client.py`, `src/results/summary.py`) -/

/-- Python `min` over a nonempty list (the empty case is unreachable behind
the guard in `print_benchmark_summary`). -/
def listMin : List ℚ → ℚ
  | [] => 0
  | x :: xs => xs.foldl min x

/-- Python `max` over a nonempty list. -/
def listMax : List ℚ → ℚ
  | [] => 0
  | x :: xs => xs.foldl max x

/-- The aggregate statistics printed by `print_benchmark_summary`. -/
structure Summary where
  count : ℕ
  delay_min : ℚ
  delay_max : ℚ
  delay_avg : ℚ
  fps_min : ℚ
  fps_max : ℚ
  fps_avg : ℚ
deriving DecidableEq

/-- `print_benchmark_summary(records)` (client.py lines 66-77; test.py
lines 70-81 is the same computation): on an empty record list it returns at
once printing nothing (`none`); otherwise it prints count and min/max/mean
of the delay and fps columns. -/
def print_benchmark_summary (records : List BenchRecord) : Option Summary :=
  if records.isEmpty then none
  else
    let delays := records.map (fun r => r.delay_ms)
    let fps_list := records.map (fun r => r.fps)
    some
      { count := records.length
        delay_min := listMin delays
        delay_max := listMax delays
        delay_avg := delays.sum / (records.length : ℚ)
        fps_min := listMin fps_list
        fps_max := listMax fps_list
        fps_avg := fps_list.sum / (records.length : ℚ) }

/-- `statistics.mean(xs)`: raises `StatisticsError` on an empty list. -/
def stat_mean (xs : List ℚ) : Except String ℚ :=
  if xs.isEmpty then Except.error "mean requires at least one data point"
  else Except.ok (xs.sum / (xs.length : ℚ))

/-- `statistics.quantiles(data, n=n)` with the default exclusive method:
raises `StatisticsError` on fewer than two data points; otherwise the
`n - 1` cut points of the sorted data, with linear interpolation
`(data[j-1] * (n - delta) + data[j] * delta) / n` where
`j, delta = divmod(i * (ld + 1), n)` clamped to `[1, ld - 1]`. -/
def stat_quantiles (data : List ℚ) (n : ℕ) : Except String (List ℚ) :=
  let ld := data.length
  if ld < 2 then Except.error "must have at least two data points"
  else
    let s := data.insertionSort (fun a b => a ≤ b)
    Except.ok ((List.range (n - 1)).map (fun i0 =>
      let i := i0 + 1
      let m := ld + 1
      let j0 := i * m / n
      let delta := i * m % n
      let j := if j0 < 1 then 1 else if j0 > ld - 1 then ld - 1 else j0
      (s.getD (j - 1) 0 * ((n : ℚ) - (delta : ℚ)) + s.getD j 0 * (delta : ℚ)) / (n : ℚ)))

/-- `analyze_and_print_metrics` (summary.py lines 4-26) applied to the two
columns parsed from the CSV: mean latency, mean fps, then the P95 and P99
cut points of `statistics.quantiles(delay_ms, n=100)`.  The first raising
call aborts the function (`statistics.mean(delay_ms)` is evaluated first). -/
def analyze_and_print_metrics (delay_ms fps : List ℚ) :
    Except String (ℚ × ℚ × ℚ × ℚ) :=
  match stat_mean delay_ms, stat_mean fps, stat_quantiles delay_ms 100 with
  | Except.ok a, Except.ok b, Except.ok q =>
      Except.ok (a, b, q.getD 94 0, q.getD 98 0)
  | Except.error e, _, _ => Except.error e
  | _, Except.error e, _ => Except.error e
  | _, _, Except.error e => Except.error e

/-! ### Helper lemmas -/

theorem roundTo_nonneg (p : ℕ) (x : ℚ) (hx : 0 ≤ x) : 0 ≤ roundTo p x := by
  unfold roundTo
  apply div_nonneg _ (by positivity)
  have h : (0 : ℤ) ≤ round (x * 10 ^ p) := by
    rw [round_eq]
    exact Int.le_floor.mpr (by positivity)
  exact_mod_cast h

theorem roundTo_zero (p : ℕ) : roundTo p 0 = 0 := by
  simp [roundTo]

theorem bench_map_frame (trips : List Trip) (idx : ℕ) :
    (stream_video_bench trips idx).map (fun r => r.frame)
      = List.range' (idx + 1) (okStreak trips) := by
  induction trips generalizing idx with
  | nil => simp [stream_video_bench, okStreak]
  | cons t rest ih =>
    cases t with
    | fail => simp [stream_video_bench, okStreak]
    | ok t0 t1 =>
      simp only [stream_video_bench, okStreak, List.map_cons, List.range'_succ, ih]
      rfl

theorem bench_c_map_frame (cid : ℕ) (trips : List Trip) (idx : ℕ) :
    (stream_video_bench_c cid trips idx).map (fun r => r.frame)
      = List.range' (idx + 1) (okStreak trips) := by
  induction trips generalizing idx with
  | nil => simp [stream_video_bench_c, okStreak]
  | cons t rest ih =>
    cases t with
    | fail => simp [stream_video_bench_c, okStreak]
    | ok t0 t1 =>
      simp only [stream_video_bench_c, okStreak, List.map_cons, List.range'_succ, ih]
      rfl

theorem bench_stop_at_fail (pre post : List Trip) (idx : ℕ) :
    stream_video_bench (pre ++ Trip.fail :: post) idx
      = stream_video_bench (pre ++ [Trip.fail]) idx := by
  induction pre generalizing idx with
  | nil => simp [stream_video_bench]
  | cons t rest ih =>
    cases t with
    | fail => simp [stream_video_bench]
    | ok t0 t1 => simp [stream_video_bench, ih]

theorem bench_c_stop_at_fail (cid : ℕ) (pre post : List Trip) (idx : ℕ) :
    stream_video_bench_c cid (pre ++ Trip.fail :: post) idx
      = stream_video_bench_c cid (pre ++ [Trip.fail]) idx := by
  induction pre generalizing idx with
  | nil => simp [stream_video_bench_c]
  | cons t rest ih =>
    cases t with
    | fail => simp [stream_video_bench_c]
    | ok t0 t1 => simp [stream_video_bench_c, ih]

theorem okStreak_all_ok (trips : List Trip) (h : trips.all Trip.isOk = true) :
    okStreak trips = trips.length := by
  induction trips with
  | nil => rfl
  | cons t rest ih =>
    cases t with
    | fail => simp [Trip.isOk] at h
    | ok t0 t1 =>
      simp only [List.all_cons, Bool.and_eq_true] at h
      simp [okStreak, ih h.2]

theorem bench_c_length (cid : ℕ) (trips : List Trip) (idx : ℕ) :
    (stream_video_bench_c cid trips idx).length = okStreak trips := by
  have h := congrArg List.length (bench_c_map_frame cid trips idx)
  simpa using h

theorem bench_c_client_id (cid : ℕ) (trips : List Trip) (idx : ℕ) :
    ∀ r ∈ stream_video_bench_c cid trips idx, r.client_id = cid := by
  induction trips generalizing idx with
  | nil => simp [stream_video_bench_c]
  | cons t rest ih =>
    cases t with
    | fail => simp [stream_video_bench_c]
    | ok t0 t1 =>
      intro r hr
      simp only [stream_video_bench_c, List.mem_cons] at hr
      rcases hr with hr | hr
      · rw [hr]; rfl
      · exact ih (idx + 1) r hr

theorem test_stream_video_client_id (cid : ℕ) (cap w : Bool) (trips : List Trip) :
    ∀ r ∈ test_stream_video cid cap w trips, r.client_id = cid := by
  unfold test_stream_video
  split
  · simp
  · exact bench_c_client_id cid trips 0

theorem test_stream_video_filter (cid : ℕ) (cap w : Bool) (trips : List Trip) (j : ℕ) :
    (test_stream_video cid cap w trips).filter (fun r => r.client_id == j)
      = if cid = j then test_stream_video cid cap w trips else [] := by
  by_cases hj : cid = j
  · rw [if_pos hj]
    apply List.filter_eq_self.mpr
    intro r hr
    have := test_stream_video_client_id cid cap w trips r hr
    simp [this, hj]
  · rw [if_neg hj]
    apply List.filter_eq_nil_iff.mpr
    intro r hr
    have := test_stream_video_client_id cid cap w trips r hr
    simp [this, hj]

theorem test_main_filter (clients : ℕ) (caps writers : ℕ → Bool)
    (trips : ℕ → List Trip) (j : ℕ) :
    (test_main clients caps writers trips).filter (fun r => r.client_id == j)
      = if j < clients then test_stream_video j (caps j) (writers j) (trips j)
        else [] := by
  induction clients with
  | zero => simp [test_main]
  | succ n ih =>
    rw [test_main, List.range_succ, List.map_append, List.flatten_append,
      List.filter_append]
    rw [test_main] at ih
    rw [ih]
    simp only [List.map_cons, List.map_nil, List.flatten_cons, List.flatten_nil,
      List.append_nil, List.filter_append]
    rw [test_stream_video_filter]
    by_cases h1 : j < n
    · have h2 : n ≠ j := by omega
      have h3 : j < n + 1 := by omega
      simp [h1, h2, h3]
    · by_cases h4 : n = j
      · subst h4
        simp [h1, Nat.lt_succ_self]
      · have h5 : ¬ j < n + 1 := by omega
        simp [h1, h4, h5]

theorem test_main_length (clients F : ℕ) (caps writers : ℕ → Bool)
    (trips : ℕ → List Trip)
    (h : ∀ i, i < clients → caps i = true ∧ (trips i).all Trip.isOk = true ∧
      (trips i).length = F) :
    (test_main clients caps writers trips).length = clients * F := by
  induction clients with
  | zero => simp [test_main]
  | succ n ih =>
    rw [test_main, List.range_succ, List.map_append, List.flatten_append,
      List.length_append]
    rw [test_main] at ih
    rw [ih (fun i hi => h i (by omega))]
    obtain ⟨hcap, hok, hlen⟩ := h n (Nat.lt_succ_self n)
    simp only [List.map_cons, List.map_nil, List.flatten_cons, List.flatten_nil,
      List.append_nil]
    rw [test_stream_video, if_neg (by simp [hcap])]
    show n * F + (stream_video_bench_c n (trips n) 0).length = (n + 1) * F
    rw [bench_c_length, okStreak_all_ok _ hok, hlen]
    ring

theorem test_main_mem_client_id (clients : ℕ) (caps writers : ℕ → Bool)
    (trips : ℕ → List Trip) :
    ∀ r ∈ test_main clients caps writers trips, r.client_id < clients := by
  intro r hr
  rw [test_main, List.mem_flatten] at hr
  obtain ⟨l, hl, hrl⟩ := hr
  rw [List.mem_map] at hl
  obtain ⟨i, hi, rfl⟩ := hl
  rw [List.mem_range] at hi
  have := test_stream_video_client_id i (caps i) (writers i) (trips i) r hrl
  omega

/-! ### Claim theorems -/

/-- C1: for every completed round trip, the recorded `delay_ms` is
nonnegative; the test.py record carries the same `delay_ms` and `fps` as the
client.py record; when the raw delay `(t1 - t0) * 1000` is zero both recorded
fields are zero; and when it is positive the recorded `fps` is exactly
`1000 / delay_ms` rounded to 3 decimal places. -/
theorem c1_record_delay_fps (cid idx : ℕ) (t0 t1 : ℚ) (h : t0 ≤ t1) :
    0 ≤ (mkRecord idx t0 t1).delay_ms ∧
    (mkRecordC cid idx t0 t1).delay_ms = (mkRecord idx t0 t1).delay_ms ∧
    (mkRecordC cid idx t0 t1).fps = (mkRecord idx t0 t1).fps ∧
    ((t1 - t0) * 1000 = 0 →
      (mkRecord idx t0 t1).delay_ms = 0 ∧ (mkRecord idx t0 t1).fps = 0) ∧
    (0 < (t1 - t0) * 1000 →
      (mkRecord idx t0 t1).fps = roundTo 3 (1000 / ((t1 - t0) * 1000))) := by
  refine ⟨?_, rfl, rfl, ?_, ?_⟩
  · apply roundTo_nonneg
    have h0 : 0 ≤ t1 - t0 := sub_nonneg.mpr h
    positivity
  · intro h0
    constructor
    · simp [mkRecord, h0, roundTo_zero]
    · simp [mkRecord, h0, instFps, roundTo_zero]
  · intro h0
    simp [mkRecord, instFps, h0]

/-- C1 witness: a round trip with `t0 = 0`, `t1 = 1` (raw delay 1000 ms). -/
theorem c1_record_delay_fps_witness :
    (0 : ℚ) ≤ 1 ∧
    (0 ≤ (mkRecord 0 0 1).delay_ms ∧
      (mkRecordC 7 0 0 1).delay_ms = (mkRecord 0 0 1).delay_ms ∧
      (mkRecordC 7 0 0 1).fps = (mkRecord 0 0 1).fps ∧
      (((1 : ℚ) - 0) * 1000 = 0 →
        (mkRecord 0 0 1).delay_ms = 0 ∧ (mkRecord 0 0 1).fps = 0) ∧
      (0 < ((1 : ℚ) - 0) * 1000 →
        (mkRecord 0 0 1).fps = roundTo 3 (1000 / (((1 : ℚ) - 0) * 1000)))) :=
  ⟨zero_le_one, c1_record_delay_fps 7 0 0 1 zero_le_one⟩

/-- C2: within one session (both the client.py loop and the test.py loop)
the recorded frame indices are exactly `[1, 2, ..., k]` — a strictly
increasing contiguous sequence starting at 1 with one record per completed
iteration — where `k` is the number of round trips completed before the
first failure; and once a failure ends the session, the records are those
of the prefix up to the failure, whatever would have followed. -/
theorem c2_frame_indices (trips : List Trip) (cid : ℕ) :
    (stream_video_bench trips 0).map (fun r => r.frame)
      = List.range' 1 (okStreak trips) ∧
    (stream_video_bench_c cid trips 0).map (fun r => r.frame)
      = List.range' 1 (okStreak trips) ∧
    (∀ pre post, stream_video_bench (pre ++ Trip.fail :: post) 0
      = stream_video_bench (pre ++ [Trip.fail]) 0) ∧
    (∀ pre post, stream_video_bench_c cid (pre ++ Trip.fail :: post) 0
      = stream_video_bench_c cid (pre ++ [Trip.fail]) 0) :=
  ⟨bench_map_frame trips 0, bench_c_map_frame cid trips 0,
    fun pre post => bench_stop_at_fail pre post 0,
    fun pre post => bench_c_stop_at_fail cid pre post 0⟩

/-- C6 counterexample: the aggregate-statistics path of
`results/summary.py` does not tolerate an empty record set —
`statistics.mean` of the empty `delay_ms` column raises. -/
theorem c6_counterexample_summary_raises :
    analyze_and_print_metrics [] [] =
      Except.error "mean requires at least one data point" := by rfl

/-- C6 amended: `print_benchmark_summary` returns a no-op summary (prints
nothing) on an empty record set, but the offline
`analyze_and_print_metrics` of `results/summary.py` raises a
`StatisticsError` on an empty record set. -/
theorem c6_amended_empty_summary :
    print_benchmark_summary [] = none ∧
    analyze_and_print_metrics [] [] =
      Except.error "mean requires at least one data point" := ⟨rfl, rfl⟩

/-- C7 counterexample: the server submits `infer` with
`run_in_executor(None, ...)`; with one CPU the default executor allows
`min(32, 1 + 4) = 5` concurrent workers, so inference is not serialized. -/
theorem c7_counterexample_not_serialized :
    inferenceSerialized infer_executor 1 = false := by decide

/-- C7 amended: inference calls go to asyncio's default thread-pool
executor, whose worker bound `min(32, cpu_count + 4)` exceeds 1 for every
CPU count, so invocations of the engine are not serialized — up to that
many inferences may run concurrently across connections. -/
theorem c7_amended_default_pool (cpu_count : ℕ) :
    executorMaxWorkers infer_executor cpu_count = min 32 (cpu_count + 4) ∧
    1 < executorMaxWorkers infer_executor cpu_count ∧
    inferenceSerialized infer_executor cpu_count = false := by
  refine ⟨rfl, ?_, ?_⟩
  · show 1 < min 32 (cpu_count + 4)
    omega
  · have h : ¬ executorMaxWorkers infer_executor cpu_count ≤ 1 := by
      show ¬ min 32 (cpu_count + 4) ≤ 1
      omega
    simpa [inferenceSerialized] using h

/-- C8 counterexample: in test.py an unwritable output path
(a `VideoWriter` that failed to open) does not abort the session — the
frame is still streamed and its record appended. -/
theorem c8_counterexample_unwritable_output :
    test_stream_video 0 true false [Trip.ok 0 (1 / 1000)] ≠ [] := by decide

/-- C8 amended: in client.py an unreadable source video or an unwritable
output path is fatal at start — the error is reported via `sys.exit` and no
records exist; in test.py an unreadable source makes the session return an
empty record list before any frames (without printing a report), while an
unwritable output path is never checked and the session still streams every
frame and appends its records. -/
theorem c8_amended_io_errors (writerOpened : Bool) (trips : List Trip) (cid : ℕ) :
    client_stream_video false writerOpened trips
      = Except.error "cannot open the input video" ∧
    client_stream_video true false trips
      = Except.error "cannot initialize the VideoWriter" ∧
    test_stream_video cid false writerOpened trips = [] ∧
    test_stream_video cid true writerOpened trips
      = stream_video_bench_c cid trips 0 :=
  ⟨rfl, rfl, rfl, rfl⟩

/-- C3: with `clients = N` sessions over a source of `F` frames, all
completing fully, the merged benchmark list has exactly `N * F` records,
each 0-based `client_id` below `N` appears exactly `F` times, and every
record's `client_id` is below `N`. -/
theorem c3_merged_record_counts (clients F : ℕ) (caps writers : ℕ → Bool)
    (trips : ℕ → List Trip)
    (h : ∀ i, i < clients → caps i = true ∧ (trips i).all Trip.isOk = true ∧
      (trips i).length = F) :
    (test_main clients caps writers trips).length = clients * F ∧
    (∀ i, i < clients →
      (test_main clients caps writers trips).countP
        (fun r => r.client_id == i) = F) ∧
    (∀ r ∈ test_main clients caps writers trips, r.client_id < clients) := by
  refine ⟨test_main_length clients F caps writers trips h, ?_,
    test_main_mem_client_id clients caps writers trips⟩
  intro i hi
  rw [List.countP_eq_length_filter, test_main_filter, if_pos hi]
  obtain ⟨hcap, hok, hlen⟩ := h i hi
  rw [test_stream_video, if_neg (by simp [hcap])]
  show (stream_video_bench_c i (trips i) 0).length = F
  rw [bench_c_length, okStreak_all_ok _ hok, hlen]

/-- C3 witness: 2 concurrent clients, 5 frames each, all round trips
completed — 10 merged records, each `client_id` 5 times. -/
theorem c3_merged_record_counts_witness :
    (∀ i, i < 2 → (fun _ : ℕ => true) i = true ∧
      ((fun _ : ℕ => List.replicate 5 (Trip.ok 0 1)) i).all Trip.isOk = true ∧
      ((fun _ : ℕ => List.replicate 5 (Trip.ok 0 1)) i).length = 5) ∧
    ((test_main 2 (fun _ => true) (fun _ => true)
        (fun _ => List.replicate 5 (Trip.ok 0 1))).length = 2 * 5 ∧
      (∀ i, i < 2 →
        (test_main 2 (fun _ => true) (fun _ => true)
          (fun _ => List.replicate 5 (Trip.ok 0 1))).countP
            (fun r => r.client_id == i) = 5) ∧
      (∀ r ∈ test_main 2 (fun _ => true) (fun _ => true)
          (fun _ => List.replicate 5 (Trip.ok 0 1)), r.client_id < 2)) :=
  ⟨by decide, c3_merged_record_counts 2 5 (fun _ => true) (fun _ => true)
    (fun _ => List.replicate 5 (Trip.ok 0 1)) (by decide)⟩

/-- C5: in the orchestrated run, the merged list's records for session `j`
are exactly the records session `j` appended — a session that failed
mid-stream keeps its partial records in the merge and siblings'
contributions are untouched — and a session's record list is determined by
the prefix of trips up to its first failure: nothing after the failure is
ever appended (no retry). -/
theorem c5_failed_session_preserved (clients : ℕ) (caps writers : ℕ → Bool)
    (trips : ℕ → List Trip) (j : ℕ) (h : j < clients) :
    (test_main clients caps writers trips).filter (fun r => r.client_id == j)
      = test_stream_video j (caps j) (writers j) (trips j) ∧
    (∀ pre post, stream_video_bench_c j (pre ++ Trip.fail :: post) 0
      = stream_video_bench_c j (pre ++ [Trip.fail]) 0) := by
  refine ⟨?_, fun pre post => bench_c_stop_at_fail j pre post 0⟩
  rw [test_main_filter, if_pos h]

/-- C5 witness: 2 sessions; session 0 drops after one completed round trip,
session 1 completes — session 0's partial record survives in the merge. -/
theorem c5_failed_session_preserved_witness :
    0 < 2 ∧
    ((test_main 2 (fun _ => true) (fun _ => true)
        (fun i => if i = 0 then [Trip.ok 0 1, Trip.fail, Trip.ok 0 1]
          else [Trip.ok 0 1])).filter (fun r => r.client_id == 0)
      = test_stream_video 0 true true [Trip.ok 0 1, Trip.fail, Trip.ok 0 1] ∧
      (∀ pre post, stream_video_bench_c 0 (pre ++ Trip.fail :: post) 0
        = stream_video_bench_c 0 (pre ++ [Trip.fail]) 0)) :=
  ⟨by decide, c5_failed_session_preserved 2 (fun _ => true) (fun _ => true)
    (fun i => if i = 0 then [Trip.ok 0 1, Trip.fail, Trip.ok 0 1]
      else [Trip.ok 0 1]) 0 (by decide)⟩

theorem ws_stream_length {Img : Type} (decode : List ℕ → Option Img)
    (engine : Img → List Detection) (ms : List (List ℕ)) :
    (ws_stream decode engine ms).length = ms.length := by
  induction ms with
  | nil => rfl
  | cons b rest ih => cases hb : decode b <;> simp [ws_stream, hb, ih]

theorem ws_stream_append {Img : Type} (decode : List ℕ → Option Img)
    (engine : Img → List Detection) (ms1 ms2 : List (List ℕ)) :
    ws_stream decode engine (ms1 ++ ms2)
      = ws_stream decode engine ms1 ++ ws_stream decode engine ms2 := by
  induction ms1 with
  | nil => rfl
  | cons b rest ih => cases hb : decode b <;> simp [ws_stream, hb, ih]

theorem ws_stream_countP {Img : Type} (decode : List ℕ → Option Img)
    (engine : Img → List Detection) (ms : List (List ℕ)) :
    (ws_stream decode engine ms).countP Reply.isError
      = ms.countP (fun m => (decode m).isNone) := by
  induction ms with
  | nil => rfl
  | cons b rest ih =>
    cases hb : decode b <;>
      simp [ws_stream, hb, List.countP_cons, ih, Reply.isError]

theorem ws_stream_good_reply {Img : Type} (decode : List ℕ → Option Img)
    (engine : Img → List Detection) (ms : List (List ℕ)) (m : List ℕ)
    (frame : Img) (hm : m ∈ ms) (hd : decode m = some frame) :
    Reply.detections (engine frame) ∈ ws_stream decode engine ms := by
  induction ms with
  | nil => simp at hm
  | cons b rest ih =>
    rcases List.mem_cons.mp hm with rfl | hm'
    · simp [ws_stream, hd]
    · have h2 := ih hm'
      cases hb : decode b <;> simp [ws_stream, hb, List.mem_cons] <;>
        first
        | exact h2
        | exact Or.inr h2

/-- C4: an undecodable binary message yields exactly one structured error
reply spliced into the reply stream, without ending the session: the server
answers every message (one reply per message, in order), the number of
error replies equals the number of undecodable messages, and every
well-formed message after the malformed one still gets a detection reply. -/
theorem c4_decode_failure_isolated {Img : Type} (decode : List ℕ → Option Img)
    (engine : Img → List Detection) (ms1 ms2 : List (List ℕ)) (b : List ℕ)
    (hb : decode b = none) :
    ws_stream decode engine (ms1 ++ b :: ms2)
      = ws_stream decode engine ms1
          ++ Reply.error "invalid image" :: ws_stream decode engine ms2 ∧
    (∀ ms, (ws_stream decode engine ms).length = ms.length) ∧
    (∀ ms, (ws_stream decode engine ms).countP Reply.isError
      = ms.countP (fun m => (decode m).isNone)) ∧
    (∀ m frame, m ∈ ms2 → decode m = some frame →
      Reply.detections (engine frame) ∈ ws_stream decode engine ms2) := by
  refine ⟨?_, ws_stream_length decode engine, ws_stream_countP decode engine,
    fun m frame hm hd => ws_stream_good_reply decode engine ms2 m frame hm hd⟩
  rw [ws_stream_append]
  congr 1
  simp [ws_stream, hb]

/-- C4 witness: a session receiving a good frame, then a malformed one,
then a good frame; `decode` accepts only the byte string `[1]`. -/
theorem c4_decode_failure_isolated_witness :
    (fun b : List ℕ => if b = [1] then some 0 else none) [2] = none ∧
    (ws_stream (fun b : List ℕ => if b = [1] then some 0 else none)
        (fun _ => []) ([[1]] ++ [2] :: [[1]])
      = ws_stream (fun b : List ℕ => if b = [1] then some 0 else none)
          (fun _ => []) [[1]]
        ++ Reply.error "invalid image"
          :: ws_stream (fun b : List ℕ => if b = [1] then some 0 else none)
              (fun _ => []) [[1]] ∧
    (∀ ms, (ws_stream (fun b : List ℕ => if b = [1] then some 0 else none)
        (fun _ => []) ms).length = ms.length) ∧
    (∀ ms, (ws_stream (fun b : List ℕ => if b = [1] then some 0 else none)
        (fun _ => []) ms).countP Reply.isError
      = ms.countP (fun m => ((fun b : List ℕ => if b = [1] then some 0 else none) m).isNone)) ∧
    (∀ m frame, m ∈ [[1]] →
      (fun b : List ℕ => if b = [1] then some 0 else none) m = some frame →
      Reply.detections ((fun _ : ℕ => ([] : List Detection)) frame)
        ∈ ws_stream (fun b : List ℕ => if b = [1] then some 0 else none)
            (fun _ => []) [[1]])) :=
  ⟨by decide, c4_decode_failure_isolated
    (fun b : List ℕ => if b = [1] then some 0 else none)
    (fun _ => []) [[1]] [[1]] [2] (by decide)⟩

theorem roundTo_roundTo (p : ℕ) (x : ℚ) : roundTo p (roundTo p x) = roundTo p x := by
  unfold roundTo
  rw [div_mul_cancel₀ _ (show ((10 : ℚ) ^ p) ≠ 0 by positivity), round_intCast]

theorem conf_le_roundTo4 (s : ℚ) (hs : CONF_THRESHOLD ≤ s) :
    CONF_THRESHOLD ≤ roundTo 4 s := by
  have hconf : CONF_THRESHOLD = 2 / 5 := by norm_num [CONF_THRESHOLD]
  rw [hconf] at hs ⊢
  unfold roundTo
  rw [le_div_iff₀ (by positivity)]
  have h1 : (4000 : ℤ) ≤ round (s * 10 ^ 4) := by
    rw [round_eq]
    apply Int.le_floor.mpr
    push_cast
    nlinarith
  calc (2 / 5 : ℚ) * 10 ^ 4 = ((4000 : ℤ) : ℚ) := by norm_num
    _ ≤ _ := by exact_mod_cast h1

theorem postRow_props (CLASS_NAMES : ℤ → Option String) (sx sy : ℚ)
    (row : List ℚ) (d : Detection)
    (hd : postRow CLASS_NAMES sx sy row = some d) :
    d.box.length = 4 ∧ CONF_THRESHOLD ≤ d.score ∧ roundTo 4 d.score = d.score ∧
    (CLASS_NAMES d.label = none → d.name = "cls" ++ toString d.label) := by
  match row with
  | [] => simp [postRow] at hd
  | [_] => simp [postRow] at hd
  | [_, _] => simp [postRow] at hd
  | [_, _, _] => simp [postRow] at hd
  | [_, _, _, _] => simp [postRow] at hd
  | [_, _, _, _, _] => simp [postRow] at hd
  | x1 :: y1 :: x2 :: y2 :: s :: l :: rest =>
    simp only [postRow] at hd
    by_cases hs : s < CONF_THRESHOLD
    · simp [hs] at hd
    · rw [if_neg hs] at hd
      injection hd with hd
      subst hd
      refine ⟨rfl, conf_le_roundTo4 s (le_of_not_lt hs), roundTo_roundTo 4 s, ?_⟩
      intro hn
      simp [hn]

theorem filterMap_postRow_props (CLASS_NAMES : ℤ → Option String) (sx sy : ℚ)
    (L : List (List ℚ)) :
    ∀ d ∈ L.filterMap (postRow CLASS_NAMES sx sy),
      d.box.length = 4 ∧ CONF_THRESHOLD ≤ d.score ∧ roundTo 4 d.score = d.score ∧
      (CLASS_NAMES d.label = none → d.name = "cls" ++ toString d.label) := by
  intro d hd
  rw [List.mem_filterMap] at hd
  obtain ⟨row, _, hrow⟩ := hd
  exact postRow_props CLASS_NAMES sx sy row d hrow

theorem squeezeRows_ok (rows : List (List ℚ))
    (h : (rows.map List.length).sum ≠ 1) :
    ∃ dets, squeezeRows rows = Except.ok dets := by
  simp only [squeezeRows]
  split
  · rename_i hcond
    obtain ⟨hn, hk⟩ := hcond
    obtain ⟨r, rfl⟩ := List.length_eq_one.mp hn
    simp only [List.headD_cons] at hk
    exfalso
    apply h
    simp [hk]
  · split
    · exact ⟨_, rfl⟩
    · split
      · exact ⟨_, rfl⟩
      · exact ⟨_, rfl⟩

/-- C9: because the client resizes each frame to 640x640 before JPEG
encoding, every frame the server decodes has the engine's input size, so
`preprocess` computes `scale_x = scale_y = 640 / 640 = 1`; and at scale 1
every reply box is exactly the truncation of the raw model coordinates —
the coordinates are already in the transmitted frame's space, with no
rescaling anywhere (the client draws `det["box"]` unchanged). -/
theorem c9_scale_one_no_rescale :
    preprocess 640 640 = (1, 1) ∧
    (∀ CLASS_NAMES (x1 y1 x2 y2 s l : ℚ) (rest : List ℚ),
      ¬ s < CONF_THRESHOLD →
      postRow CLASS_NAMES 1 1 (x1 :: y1 :: x2 :: y2 :: s :: l :: rest)
        = some ⟨((x1 :: y1 :: x2 :: y2 :: s :: l :: rest).take 4).map pyInt,
            roundTo 4 s, pyInt l,
            (CLASS_NAMES (pyInt l)).getD ("cls" ++ toString (pyInt l))⟩) := by
  constructor
  · unfold preprocess INPUT_SIZE
    norm_num
  · intro names x1 y1 x2 y2 s l rest hs
    simp only [postRow, if_neg hs, Option.some.injEq]
    simp [mul_one]

/-- C9 witness: a model row kept at scale 1 (score exactly at the
threshold) has its coordinates truncated, not rescaled. -/
theorem c9_scale_one_no_rescale_witness :
    ¬ CONF_THRESHOLD < CONF_THRESHOLD ∧
    postRow (fun _ => none) 1 1 [10, 20, 30, 40, CONF_THRESHOLD, 3]
      = some ⟨(([10, 20, 30, 40, CONF_THRESHOLD, 3] : List ℚ).take 4).map pyInt,
          roundTo 4 CONF_THRESHOLD, pyInt 3,
          ((fun _ => none : ℤ → Option String) (pyInt 3)).getD
            ("cls" ++ toString (pyInt 3))⟩ :=
  ⟨lt_irrefl CONF_THRESHOLD,
    c9_scale_one_no_rescale.2 (fun _ => none) 10 20 30 40 CONF_THRESHOLD 3 []
      (lt_irrefl CONF_THRESHOLD)⟩

/-- C10 counterexample: a raw output that is a one-dimensional array with a
single element — `np.squeeze` collapses it to a 0-dimensional array and the
`for row in dets` loop raises `TypeError`; `postprocess` does not return a
list for it. -/
theorem c10_counterexample_single_element :
    postprocess (fun _ => none) (RawOutput.arr1 [1 / 2]) 1 1
      = Except.error "iteration over a 0-d array" := by rfl

/-- C10 amended: for every raw model output whose total element count is
not exactly 1 — `None`, empty arrays, single-detection rows of length at
least 2, and rows with fewer than 6 elements included — `postprocess`
returns a (possibly empty) detection list without raising, and every
returned detection has a 4-element integer box, a score rounded to 4
decimal places and at least the 0.4 threshold, an integer label, and the
`"cls<label>"` fallback name when the label is unknown.  (A 1-element array
squeezes to 0 dimensions and iterating over it raises.) -/
theorem c10_amended_postprocess_total (CLASS_NAMES : ℤ → Option String)
    (raw : RawOutput) (scale_x scale_y : ℚ) (h : rawSize raw ≠ 1) :
    ∃ dets, postprocess CLASS_NAMES raw scale_x scale_y = Except.ok dets ∧
      ∀ d ∈ dets, d.box.length = 4 ∧ CONF_THRESHOLD ≤ d.score ∧
        roundTo 4 d.score = d.score ∧
        (CLASS_NAMES d.label = none → d.name = "cls" ++ toString d.label) := by
  cases raw with
  | noneVal => exact ⟨[], rfl, by simp⟩
  | arr1 xs =>
    have hlen : xs.length ≠ 1 := by simpa [rawSize] using h
    by_cases h0 : xs.length = 0
    · exact ⟨[], by simp [postprocess, rawSize, h0], by simp⟩
    · refine ⟨[xs].filterMap (postRow CLASS_NAMES scale_x scale_y), ?_,
        filterMap_postRow_props CLASS_NAMES scale_x scale_y [xs]⟩
      simp [postprocess, rawSize, h0, squeeze1, hlen]
  | arr2 rows =>
    have hsum : (rows.map List.length).sum ≠ 1 := by simpa [rawSize] using h
    by_cases h0 : (rows.map List.length).sum = 0
    · exact ⟨[], by simp [postprocess, rawSize, h0], by simp⟩
    · obtain ⟨rows', hrows'⟩ := squeezeRows_ok rows hsum
      refine ⟨rows'.filterMap (postRow CLASS_NAMES scale_x scale_y), ?_,
        filterMap_postRow_props CLASS_NAMES scale_x scale_y rows'⟩
      simp [postprocess, rawSize, h0, hrows']
  | arr3 rows =>
    have hsum : (rows.map List.length).sum ≠ 1 := by simpa [rawSize] using h
    by_cases h0 : (rows.map List.length).sum = 0
    · exact ⟨[], by simp [postprocess, rawSize, h0], by simp⟩
    · obtain ⟨rows', hrows'⟩ := squeezeRows_ok rows hsum
      refine ⟨rows'.filterMap (postRow CLASS_NAMES scale_x scale_y), ?_,
        filterMap_postRow_props CLASS_NAMES scale_x scale_y rows'⟩
      simp [postprocess, rawSize, h0, hrows']

/-- C10 witness: a well-formed `(1, 6)` output with one confident
detection. -/
theorem c10_amended_postprocess_total_witness :
    rawSize (RawOutput.arr2 [[10, 20, 30, 40, 1 / 2, 3]]) ≠ 1 ∧
    (∃ dets, postprocess (fun _ => none)
        (RawOutput.arr2 [[10, 20, 30, 40, 1 / 2, 3]]) 1 1 = Except.ok dets ∧
      ∀ d ∈ dets, d.box.length = 4 ∧ CONF_THRESHOLD ≤ d.score ∧
        roundTo 4 d.score = d.score ∧
        ((fun _ => none : ℤ → Option String) d.label = none →
          d.name = "cls" ++ toString d.label)) :=
  ⟨by decide, c10_amended_postprocess_total (fun _ => none)
    (RawOutput.arr2 [[10, 20, 30, 40, 1 / 2, 3]]) 1 1 (by decide)⟩

end StreamYolo
